import Mathlib

/-!
Verification development for the `crux_cli` codegen core: a shallow
embedding of `src/crux_cli/src/codegen/{parser.rs, rust_types.rs,
item_processor.rs, mod.rs}` together with theorems about the embedded
functions.

Modelling conventions:
* rustdoc JSON `Id`s are strings; the `HashMap`s `Crate::index` and
  `Crate::paths` are association lists looked up by key, and iteration
  (only used by `find_impls`, whose order the caller does not rely on)
  is list order.
* fallible Rust code (`anyhow::bail!`, `?`) becomes `Except VErr`;
  panics (`HashMap` indexing, `Option::unwrap`, `todo!()`) become
  distinguished `VErr` constructors so that they stay observably
  different from ordinary errors.
* the recursive visitors take an explicit fuel parameter that every
  call decrements; `VErr.noFuel` marks exhaustion.  Rust's recursion has
  no fuel; all theorems below hold for every fuel value that lets the
  relevant branch run.
* payload fields that the embedded code never reads are dropped from
  the corresponding constructors.
-/

namespace Crux

/-- rustdoc JSON `Id` (a wrapped string). -/
abbrev RId := String

mutual
/-- `rustdoc_types::GenericArg`; the code only distinguishes the four
constructors and reads the payload of `Type`. -/
inductive RGenericArg : Type where
  | lifetime (s : String)
  | ty (t : RType)
  | constArg
  | inferArg

/-- `rustdoc_types::GenericArgs`. -/
inductive RGenericArgs : Type where
  | angleBracketed (args : List RGenericArg) (bindings : List Unit)
  | parenthesized (inputs : List RType) (output : Option RType)

/-- `rustdoc_types::Path`: a resolved path with optional generic args. -/
inductive RPath : Type where
  | mk (name : String) (id : RId) (args : Option RGenericArgs)

/-- `rustdoc_types::Type`; constructors whose payload the embedded code
never reads are payload-free. -/
inductive RType : Type where
  | resolvedPath (p : RPath)
  | dynTrait
  | generic (s : String)
  | primitive (name : String)
  | functionPointer
  | tuple (types : List RType)
  | slice
  | array
  | implTrait
  | infer
  | rawPointer
  | borrowedRef
  | qualifiedPath
end

def RPath.name : RPath → String | .mk n _ _ => n
def RPath.id : RPath → RId | .mk _ i _ => i
def RPath.args : RPath → Option RGenericArgs | .mk _ _ a => a

/-- `rustdoc_types::StructKind`. -/
inductive RStructKind : Type where
  | unit
  | tuple (fields : List (Option RId))
  | plain (fields : List RId) (fields_stripped : Bool)

/-- `rustdoc_types::Struct` (generics unused by the embedded code). -/
structure RStruct : Type where
  kind : RStructKind
  impls : List RId

/-- `rustdoc_types::Enum`. -/
structure REnum : Type where
  variants : List RId
  impls : List RId

/-- `rustdoc_types::VariantKind`. -/
inductive RVariantKind : Type where
  | plain
  | tuple (fields : List (Option RId))
  | struct (fields : List RId) (fields_stripped : Bool)

/-- `rustdoc_types::Variant`. -/
structure RVariant : Type where
  kind : RVariantKind

/-- `rustdoc_types::Impl`, restricted to the fields the code reads. -/
structure RImpl : Type where
  trait_ : Option RPath
  for_ : RType
  items : List RId
  synthetic : Bool
  blanket_impl : Option RType

/-- `rustdoc_types::Import`. -/
structure RImport : Type where
  source : String
  name : String
  id : Option RId
  glob : Bool

/-- `rustdoc_types::Union`, restricted to the fields the code reads. -/
structure RUnion : Type where
  fields : List RId
  impls : List RId

/-- `rustdoc_types::Trait`, restricted to the fields the code reads. -/
structure RTrait : Type where
  items : List RId
  implementations : List RId

/-- `rustdoc_types::Primitive`, restricted to the fields the code reads. -/
structure RPrimitive : Type where
  impls : List RId

/-- `rustdoc_types::ItemEnum`; payloads the embedded code never reads are
dropped. -/
inductive RItemEnum : Type where
  | module (items : List RId)
  | externCrate
  | importItem (imp : RImport)
  | union (u : RUnion)
  | struct (s : RStruct)
  | structField (t : RType)
  | enum (e : REnum)
  | variant (v : RVariant)
  | function
  | trait (t : RTrait)
  | traitAlias
  | impl (i : RImpl)
  | typeAlias
  | opaqueTy
  | constant
  | static
  | foreignType
  | macroItem
  | procMacroItem
  | primitive (p : RPrimitive)
  | assocConst
  | assocType (default : Option RType)

/-- `rustdoc_types::Item`, restricted to the fields the code reads. -/
structure RItem : Type where
  id : RId
  name : Option String
  attrs : List String
  inner : RItemEnum

/-- `rustdoc_types::ItemSummary`, restricted to the `path` field. -/
structure RItemSummary : Type where
  path : List String

/-- `rustdoc_types::Crate`: `index` and `paths` are `HashMap`s, embedded
as association lists keyed by `RId`. -/
structure RCrate : Type where
  index : List (RId × RItem)
  paths : List (RId × RItemSummary)

/-- `crate_.index.get(id)` — the non-panicking `HashMap` lookup. -/
def RCrate.indexGet (c : RCrate) (id : RId) : Option RItem :=
  (c.index.find? (fun p => p.1 == id)).map (fun p => p.2)

/-- `crate_.paths.get(id)` — the non-panicking `HashMap` lookup. -/
def RCrate.pathsGet (c : RCrate) (id : RId) : Option RItemSummary :=
  (c.paths.find? (fun p => p.1 == id)).map (fun p => p.2)

/-! Portable type IR from `rust_types.rs`. -/

/-- `rust_types::Id`: rustdoc id plus original/renamed names. -/
structure TsId : Type where
  id : RId
  original : String
  renamed : String

/-- `rust_types::Id::new`: empty original and renamed names. -/
def TsId.new (id : RId) : TsId := ⟨id, "", ""⟩

mutual
/-- `rust_types::RustType`. -/
inductive RustType : Type where
  | generic (id : String) (parameters : List RustType)
  | special (s : SpecialRustType)
  | simple (id : String)

/-- `rust_types::SpecialRustType`. -/
inductive SpecialRustType : Type where
  | vec (t : RustType)
  | array (t : RustType) (n : Nat)
  | slice (t : RustType)
  | hashMap (k : RustType) (v : RustType)
  | option (t : RustType)
  | unit
  | string
  | char
  | i8
  | i16
  | i32
  | i64
  | u8
  | u16
  | u32
  | u64
  | isize
  | usize
  | bool
  | f32
  | f64
  | i54
  | u53
end

/-- `SpecialRustType::try_from(&str)`: exact match against the fixed
primitive-name table, `Err(value)` otherwise. -/
def SpecialRustType.tryFrom (value : String) : Except String SpecialRustType :=
  match value with
  | "String" => .ok .string
  | "char" => .ok .char
  | "i8" => .ok .i8
  | "i16" => .ok .i16
  | "i32" => .ok .i32
  | "i64" => .ok .i64
  | "u8" => .ok .u8
  | "u16" => .ok .u16
  | "u32" => .ok .u32
  | "u64" => .ok .u64
  | "isize" => .ok .isize
  | "usize" => .ok .usize
  | "bool" => .ok .bool
  | "f32" => .ok .f32
  | "f64" => .ok .f64
  | "I54" => .ok .i54
  | "U53" => .ok .u53
  | _ => .error value

/-- The fixed primitive table of `SpecialRustType::try_from` as a list of
(name, variant) pairs, for stating theorems about it. -/
def primitivePairs : List (String × SpecialRustType) :=
  [("String", .string), ("char", .char), ("i8", .i8), ("i16", .i16),
   ("i32", .i32), ("i64", .i64), ("u8", .u8), ("u16", .u16),
   ("u32", .u32), ("u64", .u64), ("isize", .isize), ("usize", .usize),
   ("bool", .bool), ("f32", .f32), ("f64", .f64), ("I54", .i54),
   ("U53", .u53)]

/-- The names in the fixed primitive table. -/
def primitiveNames : List String := primitivePairs.map (fun p => p.1)

/-- Modelled from the spec: the reverse direction of the primitive
round-trip (each `Special` variant back to its exact source name) lives
in rendering code outside the parser sources; container variants, which
`try_from` never produces, map to the empty string. -/
def specialName : SpecialRustType → String
  | .string => "String"
  | .char => "char"
  | .i8 => "i8"
  | .i16 => "i16"
  | .i32 => "i32"
  | .i64 => "i64"
  | .u8 => "u8"
  | .u16 => "u16"
  | .u32 => "u32"
  | .u64 => "u64"
  | .isize => "isize"
  | .usize => "usize"
  | .bool => "bool"
  | .f32 => "f32"
  | .f64 => "f64"
  | .i54 => "I54"
  | .u53 => "U53"
  | _ => ""

/-- `rust_types::RustField`. -/
structure RustField : Type where
  id : TsId
  ty : RustType
  comments : List String
  has_default : Bool

/-- `rust_types::RustStruct`. -/
structure RustStruct : Type where
  id : TsId
  generic_types : List String
  fields : List RustField
  comments : List String

/-- `RustStruct::new`. -/
def RustStruct.new (id : TsId) : RustStruct := ⟨id, [], [], []⟩

/-- `rust_types::RustTypeAlias` (never constructed by the parser, kept
for the shape of `ParsedData`). -/
structure RustTypeAlias : Type where
  id : TsId
  generic_types : List String
  ty : RustType
  comments : List String

/-- `rust_types::RustEnumVariantShared`. -/
structure RustEnumVariantShared : Type where
  id : TsId
  comments : List String

/-- `rust_types::RustEnumVariant`. -/
inductive RustEnumVariant : Type where
  | unit (shared : RustEnumVariantShared)
  | tuple (ty : RustType) (shared : RustEnumVariantShared)
  | anonymousStruct (fields : List RustField) (shared : RustEnumVariantShared)

/-- `rust_types::RustEnumShared`. -/
structure RustEnumShared : Type where
  id : TsId
  generic_types : List String
  comments : List String
  variants : List RustEnumVariant
  is_recursive : Bool

/-- `rust_types::RustEnum` (never constructed by the parser). -/
inductive RustEnum : Type where
  | unit (shared : RustEnumShared)
  | algebraic (tag_key : String) (content_key : String) (shared : RustEnumShared)

/-- `parser::ParsedData`; the three `HashMap`s become association lists. -/
structure ParsedData : Type where
  structs : List (RId × RustStruct)
  enums : List (RId × RustEnum)
  aliases : List (RId × RustTypeAlias)

/-- `ParsedData::new` / `Default`. -/
def ParsedData.new : ParsedData := ⟨[], [], []⟩

/-- `self.parsed_data.structs.entry(parent).or_insert_with(|| RustStruct::new(parent.into()))`. -/
def ParsedData.structsEntryOrInsert (pd : ParsedData) (parent : RId) : ParsedData :=
  if (pd.structs.find? (fun p => p.1 == parent)).isSome then pd
  else { pd with structs := pd.structs ++ [(parent, RustStruct.new (TsId.new parent))] }

/-- `self.parsed_data.structs.get_mut(parent)` followed by pushing a field;
`none` models the `unwrap` panic when the key is absent. -/
def ParsedData.structsPushField (pd : ParsedData) (parent : RId) (f : RustField) :
    Option ParsedData :=
  if (pd.structs.find? (fun p => p.1 == parent)).isSome then
    some { pd with
      structs := pd.structs.map (fun p =>
        if p.1 == parent then (p.1, { p.2 with fields := p.2.fields ++ [f] }) else p) }
  else none

/-- Errors and panics of the embedded visitor:
`msgErr` is an ordinary `anyhow` error (`bail!` or a propagated
`UnknownPrimitive`), `missingKey` is the panic of direct `HashMap`
indexing (`crate_.index[id]` / `crate_.paths[id]`), `unwrapFail` is the
panic of `structs.get_mut(parent).unwrap()`, `todoUnimplemented` is the
`todo!()` panic on unhandled generic-argument kinds, and `noFuel` is the
embedding artifact for fuel exhaustion. -/
inductive VErr : Type where
  | msgErr (msg : String)
  | missingKey (id : RId)
  | unwrapFail
  | todoUnimplemented
  | noFuel
deriving DecidableEq

/-- The `anyhow::bail!` message of the stripped-fields check. -/
def strippedMsg (name : String) : String :=
  "The " ++ name ++
    " struct has private fields. You may need to make them public to use them in your code."

/-- The attribute string that makes the enum-variant loop skip a variant. -/
def serdeSkipAttr : String := "#[serde(skip)]"

mutual
/-- `Visitor::visit_item` (parser.rs).  Returns the updated
`ParsedData` (the `&mut self` state); `print!` output is dropped. -/
def visitItem (fuel : Nat) (level : Nat) (name : String) (parent : RId) (id : RId)
    (c : RCrate) (pd : ParsedData) : Except VErr ParsedData :=
  match fuel with
  | 0 => .error .noFuel
  | fuel + 1 =>
    match c.indexGet id with
    | none => .ok pd
    | some item =>
      match item.inner with
      | .struct s =>
        match s.kind with
        | .unit => .ok pd
        | .tuple _ => .ok pd
        | .plain fields stripped =>
          if stripped then .error (.msgErr (strippedMsg name))
          else visitNamedChildren fuel level id fields c (pd.structsEntryOrInsert id)
      | .enum e => visitEnumVariants fuel level id e.variants c pd
      | .structField ty => do
        let (ot, pd) ← visitType fuel level "" id ty c pd
        match ot with
        | some t =>
          match pd.structsPushField parent ⟨TsId.new id, t, [], false⟩ with
          | some pd => .ok pd
          | none => .error .unwrapFail
        | none => .ok pd
      | .variant v =>
        match v.kind with
        | .plain => .ok pd
        | .tuple fields => visitVariantTupleFields fuel level id fields c pd
        | .struct fields stripped =>
          if stripped then .error (.msgErr (strippedMsg name))
          else visitNamedChildren fuel level id fields c pd
      | _ => .ok pd
termination_by structural fuel

/-- The field loop shared by the `StructKind::Plain` and
`VariantKind::Struct` branches of `visit_item`: index the graph
directly (panicking on a missing id) and visit every named field. -/
def visitNamedChildren (fuel : Nat) (level : Nat) (parent : RId) (fields : List RId)
    (c : RCrate) (pd : ParsedData) : Except VErr ParsedData :=
  match fuel with
  | 0 => .error .noFuel
  | fuel + 1 =>
    match fields with
    | [] => .ok pd
    | fid :: rest =>
      match c.indexGet fid with
      | none => .error (.missingKey fid)
      | some item =>
        match item.name with
        | some nm => do
          let pd ← visitItem fuel (level + 1) nm parent fid c pd
          visitNamedChildren fuel level parent rest c pd
        | none => visitNamedChildren fuel level parent rest c pd
termination_by structural fuel

/-- The variant loop of the `ItemEnum::Enum` branch of `visit_item`:
like the field loop, but a variant whose attrs contain
`#[serde(skip)]` is not visited. -/
def visitEnumVariants (fuel : Nat) (level : Nat) (parent : RId) (variants : List RId)
    (c : RCrate) (pd : ParsedData) : Except VErr ParsedData :=
  match fuel with
  | 0 => .error .noFuel
  | fuel + 1 =>
    match variants with
    | [] => .ok pd
    | vid :: rest =>
      match c.indexGet vid with
      | none => .error (.missingKey vid)
      | some item =>
        match item.name with
        | some nm =>
          if item.attrs.contains serdeSkipAttr then
            visitEnumVariants fuel level parent rest c pd
          else do
            let pd ← visitItem fuel (level + 1) nm parent vid c pd
            visitEnumVariants fuel level parent rest c pd
        | none => visitEnumVariants fuel level parent rest c pd
termination_by structural fuel

/-- The field loop of the `VariantKind::Tuple` branch of `visit_item`:
`None` entries are skipped with `continue`. -/
def visitVariantTupleFields (fuel : Nat) (level : Nat) (parent : RId)
    (fields : List (Option RId)) (c : RCrate) (pd : ParsedData) : Except VErr ParsedData :=
  match fuel with
  | 0 => .error .noFuel
  | fuel + 1 =>
    match fields with
    | [] => .ok pd
    | none :: rest => visitVariantTupleFields fuel level parent rest c pd
    | some fid :: rest =>
      match c.indexGet fid with
      | none => .error (.missingKey fid)
      | some item =>
        match item.name with
        | some nm => do
          let pd ← visitItem fuel (level + 1) nm parent fid c pd
          visitVariantTupleFields fuel level parent rest c pd
        | none => visitVariantTupleFields fuel level parent rest c pd
termination_by structural fuel

/-- `Visitor::visit_type` (parser.rs).  Returns the optional portable
type together with the updated `ParsedData`. -/
def visitType (fuel : Nat) (level : Nat) (name : String) (parent : RId) (ty : RType)
    (c : RCrate) (pd : ParsedData) : Except VErr (Option RustType × ParsedData) :=
  match fuel with
  | 0 => .error .noFuel
  | fuel + 1 =>
    match ty with
    | .resolvedPath p => do
      let pd ← visitItem fuel (level + 1) name parent p.id c pd
      match p.args with
      | some (.angleBracketed args _) => do
        let pd ← visitGenericArgs fuel level 0 parent args c pd
        .ok (none, pd)
      | some (.parenthesized _ _) => .ok (none, pd)
      | none => .ok (none, pd)
    | .dynTrait => .ok (none, pd)
    | .generic _ => .ok (none, pd)
    | .primitive nm =>
      match SpecialRustType.tryFrom nm with
      | .ok t => .ok (some (.special t), pd)
      | .error e => .error (.msgErr e)
    | .functionPointer => .ok (none, pd)
    | .tuple types => do
      let pd ← visitTupleTypes fuel level 0 parent types c pd
      .ok (none, pd)
    | .slice => .ok (none, pd)
    | .array => .ok (none, pd)
    | .implTrait => .ok (none, pd)
    | .infer => .ok (none, pd)
    | .rawPointer => .ok (none, pd)
    | .borrowedRef => .ok (none, pd)
    | .qualifiedPath => .ok (none, pd)
termination_by structural fuel

/-- The argument loop of the `GenericArgs::AngleBracketed` case of
`visit_type`: type arguments are visited recursively with their index
as name; lifetime, const and inferred arguments hit `todo!()`. -/
def visitGenericArgs (fuel : Nat) (level : Nat) (i : Nat) (parent : RId)
    (args : List RGenericArg) (c : RCrate) (pd : ParsedData) : Except VErr ParsedData :=
  match fuel with
  | 0 => .error .noFuel
  | fuel + 1 =>
    match args with
    | [] => .ok pd
    | .lifetime _ :: _ => .error .todoUnimplemented
    | .constArg :: _ => .error .todoUnimplemented
    | .inferArg :: _ => .error .todoUnimplemented
    | .ty t :: rest => do
      let (_, pd) ← visitType fuel level (toString i) parent t c pd
      visitGenericArgs fuel level (i + 1) parent rest c pd
termination_by structural fuel

/-- The element loop of the `Type::Tuple` case of `visit_type`. -/
def visitTupleTypes (fuel : Nat) (level : Nat) (i : Nat) (parent : RId)
    (types : List RType) (c : RCrate) (pd : ParsedData) : Except VErr ParsedData :=
  match fuel with
  | 0 => .error .noFuel
  | fuel + 1 =>
    match types with
    | [] => .ok pd
    | t :: rest => do
      let (_, pd) ← visitType fuel level (toString i) parent t c pd
      visitTupleTypes fuel level (i + 1) parent rest c pd
termination_by structural fuel
end

/-- The associated-type collection inside `find_impls`: for each member
id of a matching impl, index the graph directly (panicking on a missing
id) and keep `(name, id)` for named `AssocType` members whose name is in
`filter` and whose default is a resolved reference. -/
def implAssocTypes (c : RCrate) (filter : List String) :
    List RId → Except VErr (List (String × RId))
  | [] => .ok []
  | mid :: rest =>
    match c.indexGet mid with
    | none => .error (.missingKey mid)
    | some item => do
      let tail ← implAssocTypes c filter rest
      match item.name with
      | some nm =>
        if filter.contains nm then
          match item.inner with
          | .assocType (some (.resolvedPath p)) => .ok ((nm, p.id) :: tail)
          | _ => .ok tail
        else .ok tail
      | none => .ok tail

/-- `find_impls` (parser.rs): scan the index for impls of the trait
named `trait_name` whose self type is a resolved path, and pair the self
type id with the filtered associated types.  `HashMap` iteration order
is embedded as index-list order. -/
def findImpls (c : RCrate) (trait_name : String) (filter : List String) :
    Except VErr (List (RId × List (String × RId))) :=
  go c.index
where
  /-- The `filter_map` body of `find_impls`, over the remaining index entries. -/
  go : List (RId × RItem) → Except VErr (List (RId × List (String × RId)))
    | [] => .ok []
    | (_, v) :: rest =>
      match v.inner with
      | .impl i =>
        match i.trait_, i.for_ with
        | some tp, .resolvedPath fp =>
          if tp.name == trait_name then do
            let assoc ← implAssocTypes c filter i.items
            let tail ← go rest
            .ok ((fp.id, assoc) :: tail)
          else go rest
        | _, _ => go rest
      | _ => go rest

/-- The inner loop of `parse` over one impl's associated items. -/
def parseAssoc (fuel : Nat) (c : RCrate) (parent : RId) :
    List (String × RId) → ParsedData → Except VErr ParsedData
  | [], pd => .ok pd
  | (name, id) :: rest, pd => do
    let pd ← visitItem fuel 0 name parent id c pd
    parseAssoc fuel c parent rest pd

/-- The root loop body of `parse`: for each found impl, index
`crate_.paths` directly (the `println!` panics on a missing id) and
visit every associated item. -/
def parseRoots (fuel : Nat) (c : RCrate) :
    List (RId × List (String × RId)) → ParsedData → Except VErr ParsedData
  | [], pd => .ok pd
  | (id, assoc) :: rest, pd =>
    match c.pathsGet id with
    | none => .error (.missingKey id)
    | some _ => do
      let pd ← parseAssoc fuel c id assoc pd
      parseRoots fuel c rest pd

/-- `parse` (parser.rs): visit the `Ffi` slot of every `Effect` impl,
then the `Event` and `ViewModel` slots of every `App` impl, returning
the visitor state. -/
def parse (fuel : Nat) (c : RCrate) : Except VErr ParsedData := do
  let pd := ParsedData.new
  let roots1 ← findImpls c "Effect" ["Ffi"]
  let pd ← parseRoots fuel c roots1 pd
  let roots2 ← findImpls c "App" ["Event", "ViewModel"]
  parseRoots fuel c roots2 pd

/-! Item-processor embedding (item_processor.rs, mod.rs). -/

/-- Modelled from the spec: `nameable_item.rs` is not part of the
sources, but every field is pinned down by its uses in
item_processor.rs (`m.item.item.id`, construction with `item`,
`overridden_name`, `sorting_prefix`) and spec section 3. -/
structure NameableItem : Type where
  item : RItem
  overridden_name : Option String
  sorting_prefix : Nat

/-- Modelled from the spec: `path_component.rs` is not part of the
sources; fields pinned down by uses in item_processor.rs
(`item`, `type_`, `hide`) and spec section 3. -/
structure PathComponent : Type where
  item : NameableItem
  type_ : Option RType
  hide : Bool

/-- `IntermediatePublicItem`: an ordered path of components ending at
the target item. -/
structure IntermediatePublicItem : Type where
  path : List PathComponent

/-- `IntermediatePublicItem::item().id`: the id of the last path
component.  The Rust accessor panics on an empty path, which the
processor never constructs; the empty case returns `""`. -/
def IntermediatePublicItem.lastId (x : IntermediatePublicItem) : RId :=
  match x.path.getLast? with
  | some pc => pc.item.item.id
  | none => ""

/-- `UnprocessedItem`: a queued unit of work. -/
structure UnprocessedItem : Type where
  parent_path : List PathComponent
  id : RId

/-- `ImplKind` (item_processor.rs). -/
inductive ImplKind : Type where
  | inherent
  | trait
  | autoDerived
  | autoTrait
  | blanket
deriving DecidableEq

/-- `ImplKind::from(impl_item, impl_)`: the fixed classification
precedence. -/
def ImplKind.ofImpl (impl_item : RItem) (impl_ : RImpl) : ImplKind :=
  let has_blanket_impl := impl_.blanket_impl.isSome
  let is_automatically_derived := impl_item.attrs.contains "#[automatically_derived]"
  match impl_.synthetic, has_blanket_impl with
  | true, false => .autoTrait
  | false, true => .blanket
  | _, _ =>
    if is_automatically_derived then .autoDerived
    else if impl_.trait_.isNone then .inherent
    else .trait

/-- `sorting_prefix(item)` (item_processor.rs): the per-kind ordering
constant. -/
def sortingPrefix (item : RItem) : Nat :=
  match item.inner with
  | .externCrate => 1
  | .importItem _ => 2
  | .primitive _ => 3
  | .module _ => 4
  | .macroItem => 5
  | .procMacroItem => 6
  | .enum _ => 7
  | .union _ => 8
  | .struct _ => 9
  | .structField _ => 10
  | .variant _ => 11
  | .constant => 12
  | .static => 13
  | .trait _ => 14
  | .assocType _ => 15
  | .assocConst => 16
  | .function => 17
  | .typeAlias => 19
  | .impl i =>
    match ImplKind.ofImpl item i with
    | .inherent => 20
    | .trait => 21
    | .autoDerived => 21
    | .autoTrait => 23
    | .blanket => 24
  | .foreignType => 25
  | .opaqueTy => 26
  | .traitAlias => 27

/-- `ImplKind::is_active`. -/
def ImplKind.isActive : ImplKind → Bool
  | .blanket => false
  | .autoTrait => false
  | .autoDerived => false
  | .inherent => true
  | .trait => true

/-- `children_for_item(item)` (item_processor.rs). -/
def childrenForItem (item : RItem) : List RId :=
  match item.inner with
  | .module m => m
  | .union u => u.fields
  | .struct s =>
    match s.kind with
    | .plain fields _ => fields
    | .unit => []
    | .tuple fields => fields.filterMap id
  | .variant v =>
    match v.kind with
    | .struct fields _ => fields
    | .plain => []
    | .tuple fields => fields.filterMap id
  | .enum e => e.variants
  | .trait t => t.items
  | .impl i => i.items
  | _ => []

/-- `impls_for_item(item)` (item_processor.rs). -/
def implsForItem (item : RItem) : Option (List RId) :=
  match item.inner with
  | .union u => some u.impls
  | .struct s => some s.impls
  | .enum e => some e.impls
  | .primitive p => some p.impls
  | .trait t => some t.implementations
  | _ => none

/-- The state of one `ItemProcessor` together with its `CrateWrapper`
(mod.rs): the read-only crate, the missing-id list, the work queue
(front at the list head) and the output list. -/
structure ProcState : Type where
  crate_ : RCrate
  missing_ids : List RId
  work_queue : List UnprocessedItem
  output : List IntermediatePublicItem

/-- `CrateWrapper::get_item`: look the id up in the index, recording it
in `missing_ids` on every failure. -/
def ProcState.getItem (s : ProcState) (id : RId) : Option RItem × ProcState :=
  match s.crate_.indexGet id with
  | some item => (some item, s)
  | none => (none, { s with missing_ids := s.missing_ids ++ [id] })

/-- `ItemProcessor::add_to_work_queue`: push to the front. -/
def ProcState.addToWorkQueue (s : ProcState) (parent_path : List PathComponent)
    (id : RId) : ProcState :=
  { s with work_queue := ⟨parent_path, id⟩ :: s.work_queue }

/-- `UnprocessedItem::finish`: complete the parent path with the final
component for `item`. -/
def UnprocessedItem.finish (u : UnprocessedItem) (item : RItem)
    (overridden_name : Option String) (type_ : Option RType) : IntermediatePublicItem :=
  ⟨u.parent_path ++ [⟨⟨item, overridden_name, sortingPrefix item⟩, type_, false⟩]⟩

/-- `ItemProcessor::get_item_if_not_in_path`. -/
def ProcState.getItemIfNotInPath (s : ProcState) (parent_path : List PathComponent)
    (id : RId) : Option RItem × ProcState :=
  if parent_path.any (fun m => m.item.item.id == id) then (none, s)
  else s.getItem id

/-- `ItemProcessor::process_item_for_type`: finish the item, enqueue its
children under the finished path and its impls under the hidden copy of
that path, then append the finished item to the output. -/
def processItemForType (s : ProcState) (u : UnprocessedItem) (item : RItem)
    (overridden_name : Option String) (type_ : Option RType) : ProcState :=
  let finished := u.finish item overridden_name type_
  let children := childrenForItem item
  let impls := (implsForItem item).getD []
  let s := children.foldl (fun s id => s.addToWorkQueue finished.path id) s
  let hidden := finished.path.map (fun a => { a with hide := true })
  let s := impls.foldl (fun s id => s.addToWorkQueue hidden id) s
  { s with output := s.output ++ [finished] }

/-- `ItemProcessor::process_item`. -/
def processItem (s : ProcState) (u : UnprocessedItem) (item : RItem)
    (overridden_name : Option String) : ProcState :=
  processItemForType s u item overridden_name none

/-- `ItemProcessor::process_item_unless_recursive`: if the item's id is
already on the path, emit the recursion-guard leaf instead of
expanding. -/
def processItemUnlessRecursive (s : ProcState) (u : UnprocessedItem) (item : RItem)
    (overridden_name : Option String) : ProcState :=
  if u.parent_path.any (fun m => m.item.item.id == item.id) then
    { s with
      output := s.output ++
        [u.finish item (some ("<<" ++ (item.name.getD "") ++ ">>")) none] }
  else processItem s u item overridden_name

/-- `ItemProcessor::process_impl_item`: drop inactive impl kinds,
process the rest against the impl's self type. -/
def processImplItem (s : ProcState) (u : UnprocessedItem) (item : RItem)
    (impl_ : RImpl) : ProcState :=
  if (ImplKind.ofImpl item impl_).isActive then
    processItemForType s u item none (some impl_.for_)
  else s

/-- `ItemProcessor::process_import_item`: resolve the target unless that
would create a cycle, then process under the import's local name. -/
def processImportItem (s : ProcState) (item : RItem) (imp : RImport)
    (u : UnprocessedItem) : ProcState :=
  let resolved : Option RItem × ProcState :=
    match imp.id with
    | some tid => s.getItemIfNotInPath u.parent_path tid
    | none => (none, s)
  let actual_item := resolved.1.getD item
  processItem resolved.2 u actual_item (some imp.name)

/-- `ItemProcessor::process_import_glob_item`: if the target resolves to
a module not already on the path, enqueue all of its children under the
current path; otherwise fall back to an opaque leaf. -/
def processImportGlobItem (s : ProcState) (imp : RImport)
    (u : UnprocessedItem) (item : RItem) : ProcState :=
  let resolved : Option RItem × ProcState :=
    match imp.id with
    | some tid => s.getItemIfNotInPath u.parent_path tid
    | none => (none, s)
  match resolved.1 with
  | some target =>
    match target.inner with
    | .module items =>
      items.foldl (fun s id => s.addToWorkQueue u.parent_path id) resolved.2
    | _ => processItem resolved.2 u item (some ("<<" ++ imp.source ++ "::*>>"))
  | none => processItem resolved.2 u item (some ("<<" ++ imp.source ++ "::*>>"))

/-- `ItemProcessor::process_any_item`: dispatch on the item kind. -/
def processAnyItem (s : ProcState) (item : RItem) (u : UnprocessedItem) : ProcState :=
  match item.inner with
  | .importItem imp =>
    if imp.glob then processImportGlobItem s imp u item
    else processImportItem s item imp u
  | .impl i => processImplItem s u item i
  | _ => processItemUnlessRecursive s u item none

/-- `ItemProcessor::run`: drain the work queue, with fuel bounding the
number of processed units (the Rust loop has no such bound; every
theorem below holds for each fuel value). -/
def run (fuel : Nat) (s : ProcState) : ProcState :=
  match fuel with
  | 0 => s
  | fuel + 1 =>
    match s.work_queue with
    | [] => s
    | u :: rest =>
      let s1 := { s with work_queue := rest }
      match s1.getItem u.id with
      | (some item, s2) => run fuel (processAnyItem s2 item u)
      | (none, s2) => run fuel s2

/-- Insert one finished item into the id-to-items multimap:
`entry(key).or_default().push(item)` over an association list. -/
def insertMulti (m : List (RId × List IntermediatePublicItem)) (key : RId)
    (v : IntermediatePublicItem) : List (RId × List IntermediatePublicItem) :=
  match m with
  | [] => [(key, [v])]
  | (k, l) :: rest =>
    if k == key then (k, l ++ [v]) :: rest
    else (k, l) :: insertMulti rest key v

/-- Multimap lookup with `[]` as the default (the `HashMap` lookup of a
missing key). -/
def multiLookup (m : List (RId × List IntermediatePublicItem)) (key : RId) :
    List IntermediatePublicItem :=
  match m with
  | [] => []
  | (k, l) :: rest => if k == key then l else multiLookup rest key

/-- `ItemProcessor::id_to_items`: fold the output into the multimap
keyed by each finished item's terminal id. -/
def idToItems (output : List IntermediatePublicItem) :
    List (RId × List IntermediatePublicItem) :=
  output.foldl (fun m it => insertMulti m it.lastId it) []

/-! Helper predicates and concrete inputs used by the theorems below. -/

/-- A generic argument the angle-bracket loop of `visit_type` has no
implementation for: it hits `todo!()` when reached. -/
def RGenericArg.isUnhandled : RGenericArg → Bool
  | .lifetime _ => true
  | .constArg => true
  | .inferArg => true
  | .ty _ => false

/-- Companion of `visitGenericArgs` that stops successfully right
before the first unhandled argument; its success expresses that the
argument loop reaches that unhandled argument. -/
def visitArgsBefore (fuel : Nat) (level : Nat) (i : Nat) (parent : RId)
    (args : List RGenericArg) (c : RCrate) (pd : ParsedData) : Except VErr ParsedData :=
  match fuel with
  | 0 => .error .noFuel
  | fuel + 1 =>
    match args with
    | [] => .ok pd
    | .ty t :: rest => do
      let (_, pd) ← visitType fuel level (toString i) parent t c pd
      visitArgsBefore fuel level (i + 1) parent rest c pd
    | _ :: _ => .ok pd

/-- Item kinds dispatched by `process_any_item` to
`process_item_unless_recursive` — everything except imports and
impls. -/
def RItemEnum.isDefaultRoute : RItemEnum → Bool
  | .importItem _ => false
  | .impl _ => false
  | _ => true

/-- Does some component id of the path occur more than once?  This is
the negation of the spec invariant that no Item Id repeats among its
own ancestors on a finished path. -/
def hasDupIds : List PathComponent → Bool
  | [] => false
  | pc :: rest =>
    rest.any (fun x => x.item.item.id == pc.item.item.id) || hasDupIds rest

/-- Concrete crate for C1: a unit struct `S` with a path summary. -/
def c1Crate : RCrate :=
  ⟨[("X", ⟨"X", some "S", [], .struct ⟨.unit, []⟩⟩)], [("X", ⟨["my", "S"]⟩)]⟩

/-- Concrete crate for C2: an `Effect` impl for `A` whose `Ffi`
associated type resolves to the plain struct `S` with stripped
fields. -/
def c2Crate : RCrate :=
  ⟨[("E", ⟨"E", none, [],
      .impl ⟨some (.mk "Effect" "TE" none), .resolvedPath (.mk "MyApp" "A" none),
             ["AT"], false, none⟩⟩),
    ("AT", ⟨"AT", some "Ffi", [], .assocType (some (.resolvedPath (.mk "F" "S" none)))⟩),
    ("S", ⟨"S", some "S", [], .struct ⟨.plain ["fld"] true, []⟩⟩)],
   [("A", ⟨["my", "A"]⟩)]⟩

/-- Concrete crate for C3: inherent impl `I` whose member list contains
the struct `T`, while `T`'s impl list contains `I` — so `I` is
reachable from its own members. -/
def c3Crate : RCrate :=
  ⟨[("I", ⟨"I", none, [], .impl ⟨none, .slice, ["T"], false, none⟩⟩),
    ("T", ⟨"T", some "T", [], .struct ⟨.unit, ["I"]⟩⟩)], []⟩

/-- Processor start state for C3: one unit of work for `I` with an
empty parent path. -/
def c3Start : ProcState := ⟨c3Crate, [], [⟨[], "I"⟩], []⟩

/-- Item for the C3 witness: a childless module `M`. -/
def c3wItem : RItem := ⟨"M", some "M", [], .module []⟩

/-- Work unit for the C3 witness: `M` queued under a path that already
contains `M`. -/
def c3wU : UnprocessedItem := ⟨[⟨⟨c3wItem, none, 4⟩, none, false⟩], "M"⟩

/-- Processor state for the C3 witness. -/
def c3wS : ProcState := ⟨⟨[("M", c3wItem)], []⟩, [], [], []⟩

/-- Concrete impls for the C5 witness: a blanket impl and an inherent
impl with one member each. -/
def c5BlanketImpl : RImpl := ⟨none, .slice, ["m"], false, some .slice⟩

/-- Item carrying the C5 blanket impl. -/
def c5BlanketItem : RItem := ⟨"IB", none, [], .impl c5BlanketImpl⟩

/-- Inherent impl for the C5 witness. -/
def c5InherentImpl : RImpl := ⟨none, .slice, ["m"], false, none⟩

/-- Item carrying the C5 inherent impl. -/
def c5InherentItem : RItem := ⟨"II", none, [], .impl c5InherentImpl⟩

/-- Empty processor state for the C5 witness. -/
def c5S : ProcState := ⟨⟨[], []⟩, [], [], []⟩

/-- Work unit for the C5 witness. -/
def c5U : UnprocessedItem := ⟨[], "IB"⟩

/-- Concrete crate for C6: module `M` references the missing id `X`
twice, and the non-glob import `Imp` targets the missing id `Y`. -/
def c6Crate : RCrate :=
  ⟨[("M", ⟨"M", some "M", [], .module ["X", "X", "Imp"]⟩),
    ("Imp", ⟨"Imp", some "Y", [], .importItem ⟨"ext::Y", "Y", some "Y", false⟩⟩)], []⟩

/-- Processor start state for C6. -/
def c6Start : ProcState := ⟨c6Crate, [], [⟨[], "M"⟩], []⟩

/-- Processor state for the C6 witness: one unit of work for an id
missing from an empty crate. -/
def c6wS : ProcState := ⟨⟨[], []⟩, [], [⟨[], "Z"⟩], []⟩

/-- The generic-argument list of the C8 inputs: a type argument
followed by a lifetime argument. -/
def c8ArgsBad : List RGenericArg := [.ty (.primitive "nope"), .lifetime "a"]

/-- Generic arguments for the C8 witness: a handled type argument
before the lifetime. -/
def c8ArgsOk : List RGenericArg := [.ty (.primitive "u8"), .lifetime "a"]

/-- The empty crate. -/
def emptyCrate : RCrate := ⟨[], []⟩

/-! Theorems.  Helper lemmas first, then one theorem per claim (with
witnesses and counterexamples where required). -/

/-- Bind on a success reduces to the continuation. -/
theorem exceptBindOk {α β ε : Type} (a : α) (f : α → Except ε β) :
    (Except.ok a >>= f) = f a := rfl

/-- Bind on an error short-circuits. -/
theorem exceptBindErr {α β ε : Type} (e : ε) (f : α → Except ε β) :
    ((Except.error e : Except ε α) >>= f) = Except.error e := rfl

/-- A name outside the fixed table makes `try_from` fail with the name
itself as the error. -/
theorem tryFrom_not_mem {s : String} (h : s ∉ primitiveNames) :
    SpecialRustType.tryFrom s = .error s := by
  unfold SpecialRustType.tryFrom
  split <;> simp_all [primitiveNames, primitivePairs]

/-- A successful `try_from` is undone exactly by `specialName`: the
original name is recoverable from the variant. -/
theorem tryFrom_ok_name {s : String} {v : SpecialRustType}
    (h : SpecialRustType.tryFrom s = .ok v) : specialName v = s := by
  unfold SpecialRustType.tryFrom at h
  split at h <;> first
    | (injection h with h; subst h; rfl)
    | injection h

/-- The fixed table maps distinct names to distinct variants. -/
theorem tryFrom_inj {s1 s2 : String} {v : SpecialRustType}
    (h1 : SpecialRustType.tryFrom s1 = .ok v) (h2 : SpecialRustType.tryFrom s2 = .ok v) :
    s1 = s2 :=
  (tryFrom_ok_name h1).symm.trans (tryFrom_ok_name h2)

/-- C7: every entry of the fixed primitive table normalizes to its
`Special` variant; the table mapping is injective, so the exact
original name is recoverable from the variant; every name outside the
table yields an error instead of a value — both at the
`SpecialRustType::try_from` level and through `visit_type` on a
primitive name token. -/
theorem c7_primitive_table :
    (∀ n v, (n, v) ∈ primitivePairs → SpecialRustType.tryFrom n = .ok v) ∧
    (∀ s v, SpecialRustType.tryFrom s = .ok v → specialName v = s) ∧
    (∀ s1 s2 v, SpecialRustType.tryFrom s1 = .ok v →
      SpecialRustType.tryFrom s2 = .ok v → s1 = s2) ∧
    (∀ s, s ∉ primitiveNames → SpecialRustType.tryFrom s = .error s) ∧
    (∀ fuel level name parent c pd n v, (n, v) ∈ primitivePairs →
      visitType (fuel + 1) level name parent (.primitive n) c pd =
        .ok (some (.special v), pd)) ∧
    (∀ fuel level name parent c pd s, s ∉ primitiveNames →
      visitType (fuel + 1) level name parent (.primitive s) c pd =
        .error (.msgErr s)) := by
  refine ⟨?_, ?_, ?_, ?_, ?_, ?_⟩
  · intro n v h
    fin_cases h <;> rfl
  · exact fun s v h => tryFrom_ok_name h
  · exact fun s1 s2 v h1 h2 => tryFrom_inj h1 h2
  · exact fun s h => tryFrom_not_mem h
  · intro fuel level name parent c pd n v h
    have ht : SpecialRustType.tryFrom n = .ok v := by fin_cases h <;> rfl
    simp [visitType, ht]
  · intro fuel level name parent c pd s h
    simp [visitType, tryFrom_not_mem h]

/-- Witness for C7 at the name `u32` (in the table) and `u33` (outside
the table). -/
theorem c7_primitive_table_witness :
    (("u32", SpecialRustType.u32) ∈ primitivePairs ∧
      SpecialRustType.tryFrom "u32" = .ok .u32 ∧ specialName .u32 = "u32") ∧
    ("u33" ∉ primitiveNames ∧ SpecialRustType.tryFrom "u33" = .error "u33") ∧
    visitType 1 0 "nm" "P" (.primitive "u32") emptyCrate ParsedData.new =
      .ok (some (.special .u32), ParsedData.new) :=
  ⟨⟨by simp [primitivePairs], c7_primitive_table.1 "u32" .u32 (by simp [primitivePairs]),
    c7_primitive_table.2.1 "u32" .u32 rfl⟩,
   ⟨by decide, c7_primitive_table.2.2.2.1 "u33" (by decide)⟩,
   c7_primitive_table.2.2.2.2.1 0 0 "nm" "P" emptyCrate ParsedData.new "u32" .u32
     (by simp [primitivePairs])⟩

/-- C2: a visited plain struct, or a visited struct-like enum variant,
whose fields are reported stripped, makes `visit_item` fail with the
`anyhow` error naming the visited item, and the error propagates
through the parse loops, so `parse` returns an error and no partial
`ParsedData` reaches the caller. -/
theorem c2_stripped_fields_abort :
    (∀ fuel level name parent id c pd item fields impls,
      c.indexGet id = some item →
      item.inner = .struct ⟨.plain fields true, impls⟩ →
      visitItem (fuel + 1) level name parent id c pd =
        .error (.msgErr (strippedMsg name))) ∧
    (∀ fuel level name parent id c pd item fields,
      c.indexGet id = some item →
      item.inner = .variant ⟨.struct fields true⟩ →
      visitItem (fuel + 1) level name parent id c pd =
        .error (.msgErr (strippedMsg name))) ∧
    (∀ name, strippedMsg name =
      "The " ++ name ++
        " struct has private fields. You may need to make them public to use them in your code.") ∧
    (∀ fuel c parent name id rest pd e,
      visitItem fuel 0 name parent id c pd = .error e →
      parseAssoc fuel c parent ((name, id) :: rest) pd = .error e) ∧
    (∀ fuel c id assoc rest pd e sm,
      c.pathsGet id = some sm →
      parseAssoc fuel c id assoc pd = .error e →
      parseRoots fuel c ((id, assoc) :: rest) pd = .error e) ∧
    (∀ fuel c roots e,
      findImpls c "Effect" ["Ffi"] = .ok roots →
      parseRoots fuel c roots ParsedData.new = .error e →
      parse fuel c = .error e) ∧
    (∀ fuel c e d, parse fuel c = .error e → parse fuel c ≠ .ok d) := by
  refine ⟨?_, ?_, fun _ => rfl, ?_, ?_, ?_, ?_⟩
  · intro fuel level name parent id c pd item fields impls h1 h2
    simp [visitItem, h1, h2]
  · intro fuel level name parent id c pd item fields h1 h2
    simp [visitItem, h1, h2]
  · intro fuel c parent name id rest pd e h
    simp only [parseAssoc]
    rw [h]
    rfl
  · intro fuel c id assoc rest pd e sm h1 h2
    simp only [parseRoots, h1]
    rw [h2]
    rfl
  · intro fuel c roots e h1 h2
    simp only [parse, h1, exceptBindOk]
    rw [h2]
    rfl
  · intro fuel c e d h1 h2
    rw [h1] at h2
    exact Except.noConfusion h2

/-- Witness for C2 on `c2Crate`: the stripped struct `S` is reached
from the `Ffi` slot of the `Effect` impl, `visit_item` fails with the
message naming the visited item, and the whole `parse` fails with that
same error. -/
theorem c2_stripped_fields_abort_witness :
    c2Crate.indexGet "S" = some ⟨"S", some "S", [], .struct ⟨.plain ["fld"] true, []⟩⟩ ∧
    visitItem 2 0 "Ffi" "A" "S" c2Crate ParsedData.new =
      .error (.msgErr (strippedMsg "Ffi")) ∧
    parse 2 c2Crate = .error (.msgErr (strippedMsg "Ffi")) :=
  ⟨rfl,
   c2_stripped_fields_abort.1 1 0 "Ffi" "A" "S" c2Crate ParsedData.new
     ⟨"S", some "S", [], .struct ⟨.plain ["fld"] true, []⟩⟩ ["fld"] [] rfl rfl,
   rfl⟩

/-- C9: in the enum-variant loop, a variant whose attribute list
contains the exact string `#[serde(skip)]` is skipped (the state passes
through unchanged), every other named variant is visited via
`visit_item`, and the struct-field loop visits every named field with
no attribute filtering at all. -/
theorem c9_serde_skip_variants :
    (∀ fuel level parent vid rest c pd item,
      c.indexGet vid = some item →
      item.attrs.contains serdeSkipAttr = true →
      visitEnumVariants (fuel + 1) level parent (vid :: rest) c pd =
        visitEnumVariants fuel level parent rest c pd) ∧
    (∀ fuel level parent vid rest c pd item nm,
      c.indexGet vid = some item →
      item.name = some nm →
      item.attrs.contains serdeSkipAttr = false →
      visitEnumVariants (fuel + 1) level parent (vid :: rest) c pd =
        (visitItem fuel (level + 1) nm parent vid c pd).bind
          (fun pd => visitEnumVariants fuel level parent rest c pd)) ∧
    (∀ fuel level parent fid rest c pd item nm,
      c.indexGet fid = some item →
      item.name = some nm →
      visitNamedChildren (fuel + 1) level parent (fid :: rest) c pd =
        (visitItem fuel (level + 1) nm parent fid c pd).bind
          (fun pd => visitNamedChildren fuel level parent rest c pd)) := by
  refine ⟨?_, ?_, ?_⟩
  · intro fuel level parent vid rest c pd item h1 h2
    cases hn : item.name with
    | none => simp only [visitEnumVariants, h1, hn]
    | some nm =>
      simp only [visitEnumVariants, h1, hn, h2, if_true]
  · intro fuel level parent vid rest c pd item nm h1 h2 h3
    simp only [visitEnumVariants, h1, h2, h3, Bool.false_eq_true, if_false]
    rfl
  · intro fuel level parent fid rest c pd item nm h1 h2
    simp only [visitNamedChildren, h1, h2]
    rfl

/-- Witness for C9: a skip-attributed variant passes through, a plain
named variant is visited, and a skip-attributed struct field is still
visited. -/
theorem c9_serde_skip_variants_witness :
    (⟨[("V", ⟨"V", some "V", [serdeSkipAttr], .variant ⟨.plain⟩⟩)], []⟩ : RCrate).indexGet "V" =
      some ⟨"V", some "V", [serdeSkipAttr], .variant ⟨.plain⟩⟩ ∧
    visitEnumVariants 3 0 "En" ["V"] ⟨[("V", ⟨"V", some "V", [serdeSkipAttr], .variant ⟨.plain⟩⟩)], []⟩
      ParsedData.new = visitEnumVariants 2 0 "En" [] ⟨[("V", ⟨"V", some "V", [serdeSkipAttr], .variant ⟨.plain⟩⟩)], []⟩ ParsedData.new ∧
    visitNamedChildren 3 0 "St" ["V"] ⟨[("V", ⟨"V", some "V", [serdeSkipAttr], .variant ⟨.plain⟩⟩)], []⟩
      ParsedData.new =
      (visitItem 2 1 "V" "St" "V" ⟨[("V", ⟨"V", some "V", [serdeSkipAttr], .variant ⟨.plain⟩⟩)], []⟩
        ParsedData.new).bind
        (fun pd => visitNamedChildren 2 0 "St" []
          ⟨[("V", ⟨"V", some "V", [serdeSkipAttr], .variant ⟨.plain⟩⟩)], []⟩ pd) :=
  ⟨rfl,
   c9_serde_skip_variants.1 2 0 "En" "V" [] _ ParsedData.new
     ⟨"V", some "V", [serdeSkipAttr], .variant ⟨.plain⟩⟩ rfl rfl,
   c9_serde_skip_variants.2.2 2 0 "St" "V" [] _ ParsedData.new
     ⟨"V", some "V", [serdeSkipAttr], .variant ⟨.plain⟩⟩ "V" rfl rfl⟩

/-- C10: only the top-level lookup of `visit_item` is guarded — a
missing id there returns `Ok` with the state unchanged — while the
struct-field loop, the enum-variant loop, the tuple-variant loop and
the associated-item collection of `find_impls` index the graph
directly, so a missing child id is a panic (`missingKey`), not a
recorded missing id or an ordinary error. -/
theorem c10_child_lookups_panic :
    (∀ fuel level name parent id c pd, c.indexGet id = none →
      visitItem (fuel + 1) level name parent id c pd = .ok pd) ∧
    (∀ fuel level parent vid rest c pd, c.indexGet vid = none →
      visitEnumVariants (fuel + 1) level parent (vid :: rest) c pd =
        .error (.missingKey vid)) ∧
    (∀ fuel level parent fid rest c pd, c.indexGet fid = none →
      visitNamedChildren (fuel + 1) level parent (fid :: rest) c pd =
        .error (.missingKey fid)) ∧
    (∀ fuel level parent fid rest c pd, c.indexGet fid = none →
      visitVariantTupleFields (fuel + 1) level parent (some fid :: rest) c pd =
        .error (.missingKey fid)) ∧
    (∀ filter mid rest c, c.indexGet mid = none →
      implAssocTypes c filter (mid :: rest) = .error (.missingKey mid)) := by
  refine ⟨?_, ?_, ?_, ?_, ?_⟩
  · intro fuel level name parent id c pd h
    simp [visitItem, h]
  · intro fuel level parent vid rest c pd h
    simp [visitEnumVariants, h]
  · intro fuel level parent fid rest c pd h
    simp [visitNamedChildren, h]
  · intro fuel level parent fid rest c pd h
    simp [visitVariantTupleFields, h]
  · intro filter mid rest c h
    simp [implAssocTypes, h]

/-- Witness for C10 over the empty crate. -/
theorem c10_child_lookups_panic_witness :
    emptyCrate.indexGet "Z" = none ∧
    visitItem 1 0 "n" "P" "Z" emptyCrate ParsedData.new = .ok ParsedData.new ∧
    visitEnumVariants 1 0 "P" ["Z"] emptyCrate ParsedData.new = .error (.missingKey "Z") ∧
    visitNamedChildren 1 0 "P" ["Z"] emptyCrate ParsedData.new = .error (.missingKey "Z") ∧
    visitVariantTupleFields 1 0 "P" [some "Z"] emptyCrate ParsedData.new =
      .error (.missingKey "Z") ∧
    implAssocTypes emptyCrate ["Ffi"] ["Z"] = .error (.missingKey "Z") :=
  ⟨rfl,
   c10_child_lookups_panic.1 0 0 "n" "P" "Z" emptyCrate ParsedData.new rfl,
   c10_child_lookups_panic.2.1 0 0 "P" "Z" [] emptyCrate ParsedData.new rfl,
   c10_child_lookups_panic.2.2.1 0 0 "P" "Z" [] emptyCrate ParsedData.new rfl,
   c10_child_lookups_panic.2.2.2.1 0 0 "P" "Z" [] emptyCrate ParsedData.new rfl,
   c10_child_lookups_panic.2.2.2.2 ["Ffi"] "Z" [] emptyCrate rfl⟩

/-- Counterexample for C1 as stated: normalizing a resolved reference
with no generic arguments to the unit struct `S` (whose display path is
`my::S`) yields no portable type at all, not `Simple("S")`. -/
theorem c1_resolved_path_counterexample :
    visitType 2 0 "" "P" (.resolvedPath (.mk "S" "X" none)) c1Crate ParsedData.new =
      .ok (none, ParsedData.new) ∧
    (Except.ok ((none : Option RustType), ParsedData.new) :
        Except VErr (Option RustType × ParsedData)) ≠
      .ok (some (.simple "S"), ParsedData.new) :=
  ⟨rfl, by simp⟩

/-- C1 (amended): normalizing a resolved reference never produces a
portable type — the value half of every successful result is `none`,
never `Simple` or `Generic` — and a parenthesized (function-trait
style) argument list is treated exactly like an absent argument list,
without error. -/
theorem c1_resolved_path_normalization :
    (∀ fuel level name parent pnm pid ins out c pd,
      visitType fuel level name parent
        (.resolvedPath (.mk pnm pid (some (.parenthesized ins out)))) c pd =
      visitType fuel level name parent (.resolvedPath (.mk pnm pid none)) c pd) ∧
    (∀ fuel level name parent p c pd v pd2,
      visitType fuel level name parent (.resolvedPath p) c pd = .ok (v, pd2) →
      v = none) := by
  constructor
  · intro fuel level name parent pnm pid ins out c pd
    cases fuel with
    | zero => rfl
    | succ n => simp only [visitType, RPath.args, RPath.id]
  · intro fuel level name parent p c pd v pd2 h
    cases fuel with
    | zero => simp [visitType] at h
    | succ n =>
      obtain ⟨pnm, pid, pargs⟩ := p
      simp only [visitType, RPath.args, RPath.id] at h
      cases hv : visitItem n (level + 1) name parent pid c pd with
      | error e =>
        rw [hv] at h
        simp [exceptBindErr] at h
      | ok pd1 =>
        rw [hv, exceptBindOk] at h
        cases pargs with
        | none =>
          simp only [Except.ok.injEq, Prod.mk.injEq] at h
          exact h.1.symm
        | some gargs =>
          cases gargs with
          | parenthesized ins out =>
            simp only [Except.ok.injEq, Prod.mk.injEq] at h
            exact h.1.symm
          | angleBracketed args bs =>
            simp only [] at h
            cases hg : visitGenericArgs n level 0 parent args c pd1 with
            | error e =>
              rw [hg, exceptBindErr] at h
              exact absurd h (by simp)
            | ok pd3 =>
              rw [hg, exceptBindOk] at h
              simp only [Except.ok.injEq, Prod.mk.injEq] at h
              exact h.1.symm

/-- Witness for C1 (amended) at a concrete resolved reference. -/
theorem c1_resolved_path_normalization_witness :
    visitType 2 0 "" "P"
      (.resolvedPath (.mk "S" "X" (some (.parenthesized [RType.slice] none))))
      c1Crate ParsedData.new =
      visitType 2 0 "" "P" (.resolvedPath (.mk "S" "X" none)) c1Crate ParsedData.new ∧
    visitType 2 0 "" "P" (.resolvedPath (.mk "S" "X" none)) c1Crate ParsedData.new =
      .ok (none, ParsedData.new) ∧
    (none : Option RustType) = none :=
  ⟨c1_resolved_path_normalization.1 2 0 "" "P" "S" "X" [RType.slice] none c1Crate
     ParsedData.new,
   rfl,
   c1_resolved_path_normalization.2 2 0 "" "P" (.mk "S" "X" none) c1Crate
     ParsedData.new none ParsedData.new rfl⟩

/-- The angle-bracket argument loop never succeeds when the list
contains an unhandled (lifetime, const, inferred) argument. -/
theorem visitGenericArgs_unhandled_ne_ok :
    ∀ (fuel level i : Nat) (parent : RId) (args : List RGenericArg) (c : RCrate)
      (pd pd2 : ParsedData), args.any RGenericArg.isUnhandled = true →
      visitGenericArgs fuel level i parent args c pd ≠ .ok pd2 := by
  intro fuel
  induction fuel with
  | zero =>
    intro level i parent args c pd pd2 _
    simp [visitGenericArgs]
  | succ n ih =>
    intro level i parent args c pd pd2 ha
    cases args with
    | nil => simp at ha
    | cons a rest =>
      cases a with
      | lifetime s => simp [visitGenericArgs]
      | constArg => simp [visitGenericArgs]
      | inferArg => simp [visitGenericArgs]
      | ty t =>
        have ha2 : rest.any RGenericArg.isUnhandled = true := by
          simpa [RGenericArg.isUnhandled] using ha
        simp only [visitGenericArgs]
        cases hv : visitType n level (toString i) parent t c pd with
        | error e => rw [exceptBindErr]; simp
        | ok r =>
          obtain ⟨r1, pdn⟩ := r
          rw [exceptBindOk]
          exact ih level (i + 1) parent rest c pdn pd2 ha2

/-- When the loop reaches the first unhandled argument (every earlier
type argument normalizes successfully), it fails with the `todo!()`
panic. -/
theorem visitGenericArgs_unhandled_panics :
    ∀ (fuel level i : Nat) (parent : RId) (args : List RGenericArg) (c : RCrate)
      (pd pd1 : ParsedData), args.any RGenericArg.isUnhandled = true →
      visitArgsBefore fuel level i parent args c pd = .ok pd1 →
      visitGenericArgs fuel level i parent args c pd = .error .todoUnimplemented := by
  intro fuel
  induction fuel with
  | zero =>
    intro level i parent args c pd pd1 _ hb
    simp [visitArgsBefore] at hb
  | succ n ih =>
    intro level i parent args c pd pd1 ha hb
    cases args with
    | nil => simp at ha
    | cons a rest =>
      cases a with
      | lifetime s => rfl
      | constArg => rfl
      | inferArg => rfl
      | ty t =>
        have ha2 : rest.any RGenericArg.isUnhandled = true := by
          simpa [RGenericArg.isUnhandled] using ha
        simp only [visitArgsBefore] at hb
        simp only [visitGenericArgs]
        cases hv : visitType n level (toString i) parent t c pd with
        | error e =>
          rw [hv, exceptBindErr] at hb
          exact absurd hb (by simp)
        | ok r =>
          obtain ⟨r1, pdn⟩ := r
          rw [hv, exceptBindOk] at hb
          rw [exceptBindOk]
          exact ih level (i + 1) parent rest c pdn pd1 ha2 hb

/-- C8 (amended): a resolved reference whose angle-bracketed argument
list contains a lifetime, const-generic or inferred argument is never
normalized successfully, and when normalization actually reaches that
argument — the referenced item's visit and all earlier type arguments
succeed — it hits the `todo!()` unimplemented path, which is distinct
from an ordinary error value. -/
theorem c8_unhandled_generic_args :
    (∀ fuel level name parent pnm pid args bs c pd v pd2,
      args.any RGenericArg.isUnhandled = true →
      visitType (fuel + 1) level name parent
        (.resolvedPath (.mk pnm pid (some (.angleBracketed args bs)))) c pd ≠
        .ok (v, pd2)) ∧
    (∀ fuel level name parent pnm pid args bs c pd pd1 pd2,
      args.any RGenericArg.isUnhandled = true →
      visitItem fuel (level + 1) name parent pid c pd = .ok pd1 →
      visitArgsBefore fuel level 0 parent args c pd1 = .ok pd2 →
      visitType (fuel + 1) level name parent
        (.resolvedPath (.mk pnm pid (some (.angleBracketed args bs)))) c pd =
        .error .todoUnimplemented) := by
  constructor
  · intro fuel level name parent pnm pid args bs c pd v pd2 ha
    simp only [visitType, RPath.args, RPath.id]
    cases hv : visitItem fuel (level + 1) name parent pid c pd with
    | error e => rw [exceptBindErr]; simp
    | ok pd1 =>
      rw [exceptBindOk]
      cases hg : visitGenericArgs fuel level 0 parent args c pd1 with
      | error e => rw [exceptBindErr]; simp
      | ok pd3 => exact absurd hg (visitGenericArgs_unhandled_ne_ok _ _ _ _ _ _ _ _ ha)
  · intro fuel level name parent pnm pid args bs c pd pd1 pd2 ha hi hb
    simp only [visitType, RPath.args, RPath.id]
    rw [hi, exceptBindOk,
      visitGenericArgs_unhandled_panics fuel level 0 parent args c pd1 pd2 ha hb]
    rfl

/-- Counterexample for C8 as stated: the argument list contains a
lifetime, but an earlier unknown-primitive argument makes normalization
return the ordinary `UnknownPrimitive` error before the `todo!()` path
is reached. -/
theorem c8_unhandled_generic_args_counterexample :
    c8ArgsBad.any RGenericArg.isUnhandled = true ∧
    visitType 4 0 "n" "P"
      (.resolvedPath (.mk "S" "Z" (some (.angleBracketed c8ArgsBad []))))
      emptyCrate ParsedData.new = .error (.msgErr "nope") ∧
    VErr.msgErr "nope" ≠ VErr.todoUnimplemented :=
  ⟨rfl, rfl, by decide⟩

/-- Witness for C8 (amended): with a handled `u8` argument before the
lifetime, normalization hits `todo!()`. -/
theorem c8_unhandled_generic_args_witness :
    c8ArgsOk.any RGenericArg.isUnhandled = true ∧
    visitItem 3 1 "n" "P" "Z" emptyCrate ParsedData.new = .ok ParsedData.new ∧
    visitArgsBefore 3 0 0 "P" c8ArgsOk emptyCrate ParsedData.new = .ok ParsedData.new ∧
    visitType 4 0 "n" "P"
      (.resolvedPath (.mk "S" "Z" (some (.angleBracketed c8ArgsOk []))))
      emptyCrate ParsedData.new = .error .todoUnimplemented :=
  ⟨rfl, rfl, rfl,
   c8_unhandled_generic_args.2 3 0 "n" "P" "S" "Z" c8ArgsOk [] emptyCrate
     ParsedData.new ParsedData.new ParsedData.new rfl rfl rfl⟩

/-- Folding `add_to_work_queue` over a list of children pushes them,
reversed, onto the queue front and changes nothing else. -/
theorem foldl_addToWorkQueue (L : List RId) (p : List PathComponent) (s : ProcState) :
    L.foldl (fun s id => s.addToWorkQueue p id) s =
      { s with
          work_queue := (L.map (fun id => UnprocessedItem.mk p id)).reverse ++ s.work_queue } := by
  induction L generalizing s with
  | nil => simp
  | cons a t ih =>
    simp only [List.foldl_cons, List.map_cons, List.reverse_cons]
    rw [ih]
    simp [ProcState.addToWorkQueue]

/-- C3 (amended): a work unit whose item is neither an import nor an
implementation block, and whose Id already occurs among its ancestor
path, is turned into exactly one terminal recursion-guard leaf — the
overridden name wraps the real name in `<<...>>` — with no children or
impls enqueued and nothing else changed. -/
theorem c3_recursion_guard :
    ∀ (s : ProcState) (u : UnprocessedItem) (item : RItem),
      item.inner.isDefaultRoute = true →
      u.parent_path.any (fun m => m.item.item.id == item.id) = true →
      processAnyItem s item u =
        { s with
            output := s.output ++
              [u.finish item (some ("<<" ++ item.name.getD "" ++ ">>")) none] } := by
  intro s u item h1 h2
  unfold processAnyItem
  cases hInner : item.inner <;>
    simp_all [RItemEnum.isDefaultRoute, processItemUnlessRecursive]

/-- Witness for C3 (amended): a module queued under a path already
containing it becomes one `<<M>>` guard leaf. -/
theorem c3_recursion_guard_witness :
    c3wItem.inner.isDefaultRoute = true ∧
    c3wU.parent_path.any (fun m => m.item.item.id == c3wItem.id) = true ∧
    processAnyItem c3wS c3wItem c3wU =
      { c3wS with
          output := c3wS.output ++
            [c3wU.finish c3wItem (some ("<<" ++ c3wItem.name.getD "" ++ ">>")) none] } :=
  ⟨rfl, rfl, c3_recursion_guard c3wS c3wU c3wItem rfl rfl⟩

/-- Counterexample for C3 as stated: on `c3Crate` (an inherent impl
reachable from its own members) the finished traversal contains a path
with a repeated Id among its components, and in particular a finished
item whose terminal component repeats an ancestor Id without being a
recursion-guard leaf (its overridden name is `none`), because impl work
units bypass the guard. -/
theorem c3_recursion_guard_counterexample :
    (run 10 c3Start).work_queue = [] ∧
    ((run 10 c3Start).output.any (fun it => hasDupIds it.path)) = true ∧
    ((run 10 c3Start).output.any (fun it =>
        hasDupIds it.path &&
          (match it.path.getLast? with
           | some pc => pc.item.overridden_name.isNone
           | none => false))) = true :=
  ⟨rfl, rfl, rfl⟩

/-- C4: the id-to-items multimap sends every Id to exactly the finished
intermediate items whose path ends at that Id, in output order — two
distinct paths ending at the same Id stay two distinct entries, never
collapsed. -/
theorem c4_id_to_items_multimap :
    ∀ (output : List IntermediatePublicItem) (id : RId),
      multiLookup (idToItems output) id =
        output.filter (fun it => it.lastId == id) := by
  have step : ∀ (m : List (RId × List IntermediatePublicItem)) (key : RId)
      (v : IntermediatePublicItem) (id : RId),
      multiLookup (insertMulti m key v) id =
        if key == id then multiLookup m id ++ [v] else multiLookup m id := by
    intro m key v id
    induction m with
    | nil => by_cases h : key = id <;> simp [insertMulti, multiLookup, h]
    | cons p rest ih =>
      obtain ⟨k, l⟩ := p
      by_cases h1 : k = key
      · subst h1
        by_cases h2 : k = id <;> simp [insertMulti, multiLookup, h2]
      · by_cases h2 : k = id
        · subst h2
          have : ¬(key = k) := fun hh => h1 hh.symm
          simp [insertMulti, multiLookup, h1, this]
        · simp [insertMulti, multiLookup, h1, h2, ih]
  have gen : ∀ (out : List IntermediatePublicItem)
      (m : List (RId × List IntermediatePublicItem)) (id : RId),
      multiLookup (out.foldl (fun m it => insertMulti m it.lastId it) m) id =
        multiLookup m id ++ out.filter (fun it => it.lastId == id) := by
    intro out
    induction out with
    | nil => simp
    | cons it rest ih =>
      intro m id
      simp only [List.foldl_cons, List.filter_cons]
      rw [ih, step]
      by_cases h : it.lastId = id <;> simp [h]
  intro output id
  simpa [idToItems, multiLookup] using gen output [] id

/-- C5: impl blocks are classified by the fixed precedence
(synthetic-without-blanket, then non-synthetic-with-blanket, then the
automatically-derived marker, then the absence of a trait reference),
inactive kinds (`Blanket`, `AutoTrait`, `AutoDerived`) are dropped with
no member enqueued and no output produced, and active kinds
(`Inherent`, `Trait`) are finished against the impl's self type with
their members enqueued. -/
theorem c5_impl_classification :
    (∀ (item : RItem) (i : RImpl),
      ImplKind.ofImpl item i =
        if i.synthetic = true ∧ i.blanket_impl.isSome = false then .autoTrait
        else if i.synthetic = false ∧ i.blanket_impl.isSome = true then .blanket
        else if item.attrs.contains "#[automatically_derived]" = true then .autoDerived
        else if i.trait_.isNone = true then .inherent
        else .trait) ∧
    (∀ k : ImplKind, k.isActive = false ↔ (k = .blanket ∨ k = .autoTrait ∨ k = .autoDerived)) ∧
    (∀ (s : ProcState) (u : UnprocessedItem) (item : RItem) (i : RImpl),
      (ImplKind.ofImpl item i).isActive = false →
      processImplItem s u item i = s) ∧
    (∀ (s : ProcState) (u : UnprocessedItem) (item : RItem) (i : RImpl),
      item.inner = .impl i →
      (ImplKind.ofImpl item i).isActive = true →
      processImplItem s u item i =
        { s with
            work_queue :=
              (i.items.map (fun cid =>
                UnprocessedItem.mk (u.finish item none (some i.for_)).path cid)).reverse ++
                s.work_queue,
            output := s.output ++ [u.finish item none (some i.for_)] }) := by
  refine ⟨?_, ?_, ?_, ?_⟩
  · intro item i
    cases hs : i.synthetic <;> cases hb : i.blanket_impl.isSome <;>
      simp [ImplKind.ofImpl, hs, hb]
  · intro k
    cases k <;> simp [ImplKind.isActive]
  · intro s u item i h
    simp [processImplItem, h]
  · intro s u item i hInner hAct
    have hc : childrenForItem item = i.items := by simp [childrenForItem, hInner]
    have hm : implsForItem item = none := by simp [implsForItem, hInner]
    simp [processImplItem, hAct, processItemForType, hc, hm, foldl_addToWorkQueue]

/-- Witness for C5: a blanket impl is dropped entirely; an inherent
impl is kept, its member enqueued under the finished path. -/
theorem c5_impl_classification_witness :
    ImplKind.ofImpl c5BlanketItem c5BlanketImpl = .blanket ∧
    (ImplKind.ofImpl c5BlanketItem c5BlanketImpl).isActive = false ∧
    processImplItem c5S c5U c5BlanketItem c5BlanketImpl = c5S ∧
    c5InherentItem.inner = .impl c5InherentImpl ∧
    (ImplKind.ofImpl c5InherentItem c5InherentImpl).isActive = true ∧
    processImplItem c5S c5U c5InherentItem c5InherentImpl =
      { c5S with
          work_queue :=
            (c5InherentImpl.items.map (fun cid =>
              UnprocessedItem.mk
                (c5U.finish c5InherentItem none (some c5InherentImpl.for_)).path cid)).reverse ++
              c5S.work_queue,
          output := c5S.output ++ [c5U.finish c5InherentItem none (some c5InherentImpl.for_)] } :=
  ⟨rfl, rfl,
   c5_impl_classification.2.2.1 c5S c5U c5BlanketItem c5BlanketImpl rfl,
   rfl, rfl,
   c5_impl_classification.2.2.2 c5S c5U c5InherentItem c5InherentImpl rfl rfl⟩

/-- C6 (amended): a unit of work whose top-level lookup fails has its
Id appended to the missing-id list once for this failure, is dropped
with no output and nothing enqueued, and is never retried — the run
continues on the rest of the queue. -/
theorem c6_missing_id_recorded :
    ∀ (fuel : Nat) (s : ProcState) (u : UnprocessedItem) (rest : List UnprocessedItem),
      s.work_queue = u :: rest →
      s.crate_.indexGet u.id = none →
      run (fuel + 1) s =
        run fuel { s with work_queue := rest, missing_ids := s.missing_ids ++ [u.id] } := by
  intro fuel s u rest h1 h2
  simp only [run, h1]
  simp [ProcState.getItem, h2]

/-- Witness for C6 (amended) on a one-unit queue over the empty
crate. -/
theorem c6_missing_id_recorded_witness :
    c6wS.work_queue = ⟨[], "Z"⟩ :: [] ∧
    c6wS.crate_.indexGet "Z" = none ∧
    run 1 c6wS = run 0 { c6wS with work_queue := [], missing_ids := c6wS.missing_ids ++ ["Z"] } :=
  ⟨rfl, rfl, c6_missing_id_recorded 0 c6wS ⟨[], "Z"⟩ [] rfl rfl⟩

/-- Counterexample for C6 as stated: on `c6Crate` the missing id `X`,
referenced from two units of work, is recorded twice (duplicate
entries), and the import unit that referenced the missing id `Y` is
not dropped — it still produces an output leaf. -/
theorem c6_missing_id_recorded_counterexample :
    (run 10 c6Start).missing_ids = ["Y", "X", "X"] ∧
    (run 10 c6Start).output.map IntermediatePublicItem.lastId = ["M", "Imp"] ∧
    (run 10 c6Start).work_queue = [] :=
  ⟨rfl, rfl, rfl⟩

end Crux
